import Mathlib

/-!
Verification development for the plug-and-crawl scenario-driven extraction
engine.  The Python sources (plugandcrawl/BasePipeline.py and
v1/base_pipelines.py) are shallowly embedded: Python values become the
inductive PyValue, dicts become ordered association lists with unique keys,
exceptions become Except, and the asynchronous page capability becomes a
record of pure functions supplied by the caller.
-/

namespace PlugAndCrawl

/-- Python runtime values as they flow through the pipeline: None, strings,
ints, floats (modelled as exact rationals), bools, datetimes (the opaque
result of a successful strptime, abstracted to a tag), element / locator
handles (opaque), lists and dicts. -/
inductive PyValue where
  | none
  | str (s : String)
  | int (n : ℤ)
  | float (q : ℚ)
  | bool (b : Bool)
  | dt (ticks : ℕ)
  | locator (h : ℕ)
  | list (vs : List PyValue)
  | dict (kvs : List (String × PyValue))

/-- An ordered Python dict with string keys, as an association list with
unique keys (Python dict preserves insertion order). -/
abbrev Record := List (String × PyValue)

/-- Python dict item assignment d[k] = v: overwrite in place if the key is
present, otherwise append. -/
def dinsert (d : Record) (k : String) (v : PyValue) : Record :=
  if d.any (fun p => p.1 = k) then
    d.map (fun p => if p.1 = k then (k, v) else p)
  else d ++ [(k, v)]

/-- Python dict.update(u): each key of u is assigned into d in u's order. -/
def dictUpdate (d u : Record) : Record :=
  u.foldl (fun acc p => dinsert acc p.1 p.2) d

/-- Python truthiness of a value.  None, empty string, zero numbers, False
and empty collections are falsy; datetimes and locator handles are truthy. -/
def pyTruthy : PyValue → Bool
  | PyValue.none => false
  | PyValue.str s => s ≠ ""
  | PyValue.int n => n ≠ 0
  | PyValue.float q => q ≠ 0
  | PyValue.bool b => b
  | PyValue.dt _ => true
  | PyValue.locator _ => true
  | PyValue.list vs => ¬ vs.isEmpty
  | PyValue.dict kvs => ¬ kvs.isEmpty

/-- Exceptions the embedded engine can raise (Python raise becomes
Except.error).  The messages of the Python exceptions are kept as data
where the claims need to distinguish them. -/
inductive Err where
  | typeError (msg : String)
  | keyError (msg : String)
  | fieldNotFound (name url : String)
  | unboundLocal
  | unsupportedFieldType (t : String)
  | valueNotLocator
deriving DecidableEq

/-- External Python-stdlib behaviour the engine calls into: json.loads
(returning Option.none on JSONDecodeError) and datetime.strptime with the
fixed format of BasePipeline.to_datetime (returning Option.none on
ValueError).  Both are opaque collaborators of the core, supplied as
parameters of the model. -/
structure PyEnv where
  jsonLoads : String → Option PyValue
  strptime : String → Option PyValue

/-- Value of a list of decimal digit characters (Python int of the digit
substring a regex match produced). -/
def parseDigits (ds : List Char) : ℕ :=
  ds.foldl (fun a c => a * 10 + (c.toNat - 48)) 0

/-- First match of the regex pattern (\d+) in a character list: re.findall
scans left to right and at the first digit takes the maximal digit run. -/
def scanInt : List Char → Option ℕ
  | [] => Option.none
  | c :: rest =>
    if c.isDigit then Option.some (parseDigits ((c :: rest).takeWhile Char.isDigit))
    else scanInt rest

/-- First match of the regex pattern (\d+\.\d+): at each position, a maximal
digit run, a literal period, then a maximal non-empty digit run; the match
is returned as the two digit runs.  The pattern's leading character class
is a digit, so attempting a match at every position in turn reproduces
re.findall's leftmost-match behaviour. -/
def scanFloat : List Char → Option (List Char × List Char)
  | [] => Option.none
  | c :: rest =>
    if c.isDigit then
      let after := (c :: rest).dropWhile Char.isDigit
      if after.head? = Option.some '.' then
        let fp := after.tail.takeWhile Char.isDigit
        if fp.isEmpty then scanFloat rest
        else Option.some ((c :: rest).takeWhile Char.isDigit, fp)
      else scanFloat rest
    else scanFloat rest

/-- The numeric value Python float() assigns to the matched substring
ip ++ "." ++ fp, as an exact rational. -/
def ratOfParts (p : List Char × List Char) : ℚ :=
  (parseDigits p.1 : ℚ) + (parseDigits p.2 : ℚ) / ((10 : ℚ) ^ p.2.length)

/-- BasePipeline.to_int: re.findall(r'(\d+)', v) and int() of the first
match, None when there is none.  re.findall demands a string: any other
value raises TypeError. -/
def to_int : PyValue → Except Err PyValue
  | PyValue.str s =>
    match scanInt s.data with
    | Option.some n => Except.ok (PyValue.int n)
    | Option.none => Except.ok PyValue.none
  | _ => Except.error (Err.typeError "expected string or bytes-like object")

/-- BasePipeline.to_float: re.findall(r'(\d+\.\d+)', v) and float() of the
first match, None when there is none.  There is no comma handling in the
source; non-string input raises TypeError inside re.findall. -/
def to_float : PyValue → Except Err PyValue
  | PyValue.str s =>
    match scanFloat s.data with
    | Option.some p => Except.ok (PyValue.float (ratOfParts p))
    | Option.none => Except.ok PyValue.none
  | _ => Except.error (Err.typeError "expected string or bytes-like object")

/-- BasePipeline.to_json: a dict is returned unchanged; a string goes
through json.loads with JSONDecodeError mapped to None; anything else makes
json.loads raise TypeError, which the except clause does not catch. -/
def to_json (env : PyEnv) : PyValue → Except Err PyValue
  | PyValue.dict kvs => Except.ok (PyValue.dict kvs)
  | PyValue.str s => Except.ok ((env.jsonLoads s).getD PyValue.none)
  | _ => Except.error (Err.typeError "the JSON object must be str")

/-- BasePipeline.to_datetime: datetime.strptime with the fixed default
format; ValueError is mapped to None, while a non-string argument raises
TypeError past the except clause. -/
def to_datetime (env : PyEnv) : PyValue → Except Err PyValue
  | PyValue.str s => Except.ok ((env.strptime s).getD PyValue.none)
  | _ => Except.error (Err.typeError "strptime argument must be str")

/-- Python str() rendering as the 'str' type tag uses it.  Strings render
as themselves; scalar renderings follow Python.  The renderings of floats
and of compound values (Python repr-based formatting) are abstracted to
simple placeholders: no theorem in this development depends on them, the
'str' tag is only ever analysed on string input. -/
def pyStr : PyValue → String
  | PyValue.none => "None"
  | PyValue.str s => s
  | PyValue.int n => toString n
  | PyValue.float q => toString q.num ++ "/" ++ toString q.den
  | PyValue.bool b => if b then "True" else "False"
  | PyValue.dt t => "datetime<" ++ toString t ++ ">"
  | PyValue.locator h => "Locator<" ++ toString h ++ ">"
  | PyValue.list _ => "[...]"
  | PyValue.dict _ => "dict"

/-- Python str.strip(): drop whitespace from both ends, modelled over the
character list (String.trim itself is definitionally opaque to the
kernel). -/
def pyStrip (s : String) : String :=
  String.mk (((s.data.dropWhile Char.isWhitespace).reverse.dropWhile
    Char.isWhitespace).reverse)

mutual
/-- BasePipeline.convert_field_to_type: element-wise on lists, then by type
tag.  The 'str' tag is str(value).strip(); numeric tags go through the
regex extractors (raising TypeError on non-strings); 'bool' is truthiness;
'locator' insists the value is an element handle; an unknown tag raises. -/
def convert_field_to_type (env : PyEnv) : PyValue → String → Except Err PyValue
  | PyValue.list vs, t =>
    match convertEach env vs t with
    | Except.ok rs => Except.ok (PyValue.list rs)
    | Except.error e => Except.error e
  | v, t =>
    if t = "str" then Except.ok (PyValue.str (pyStrip (pyStr v)))
    else if t = "int" then to_int v
    else if t = "float" then to_float v
    else if t = "bool" then Except.ok (PyValue.bool (pyTruthy v))
    else if t = "json" then to_json env v
    else if t = "datetime" then to_datetime env v
    else if t = "locator" then
      match v with
      | PyValue.locator h => Except.ok (PyValue.locator h)
      | _ => Except.error Err.valueNotLocator
    else Except.error (Err.unsupportedFieldType t)

/-- The list comprehension inside convert_field_to_type: converts each
element in order, propagating the first exception. -/
def convertEach (env : PyEnv) : List PyValue → String → Except Err (List PyValue)
  | [], _ => Except.ok []
  | v :: vs, t =>
    match convert_field_to_type env v t with
    | Except.ok r =>
      match convertEach env vs t with
      | Except.ok rs => Except.ok (r :: rs)
      | Except.error e => Except.error e
    | Except.error e => Except.error e
end

/-- The per-field post-processing hooks of a pipeline subclass, as looked
up by name: getattr(self, "process_" ++ key ++ "__element") and
getattr(self, "process_" ++ key).  A hook is a function that may raise
(Except.error carrying the message). -/
structure Hooks where
  elemHook : String → Option (PyValue → Except String PyValue)
  wholeHook : String → Option (PyValue → Except String PyValue)

/-- The element-hook list comprehension inside use_field_function: apply
the hook to every element in order, propagating the first raise. -/
def hookEach (f : PyValue → Except String PyValue) :
    List PyValue → Except String (List PyValue)
  | [] => Except.ok []
  | v :: vs =>
    match f v with
    | Except.ok r =>
      match hookEach f vs with
      | Except.ok rs => Except.ok (r :: rs)
      | Except.error e => Except.error e
    | Except.error e => Except.error e

/-- The body of the try blocks of BasePipeline.use_field_function: on a
list, the element hook per element and then the whole-value hook on the
processed list; on any other value, just the whole-value hook. -/
def applyHooks (hooks : Hooks) (key : String) : PyValue → Except String PyValue
  | PyValue.list l =>
    match (match hooks.elemHook key with
           | Option.some f => hookEach f l
           | Option.none => Except.ok l) with
    | Except.error e => Except.error e
    | Except.ok l1 =>
      match hooks.wholeHook key with
      | Option.some f => f (PyValue.list l1)
      | Option.none => Except.ok (PyValue.list l1)
  | v =>
    match hooks.wholeHook key with
    | Option.some f => f v
    | Option.none => Except.ok v

/-- BasePipeline.use_field_function: run the hooks; any raise is caught,
logged, and the original (fully unprocessed) value is returned instead. -/
def use_field_function (hooks : Hooks) (key : String) (value : PyValue) : PyValue :=
  match applyHooks hooks key value with
  | Except.ok w => w
  | Except.error _ => value

/-- The page capability (CustomPage): find one value / all values for a
css selector and attribute designator, optionally scoped to a container
handle, with a timeout.  Lookup failure surfaces as PyValue.none (for one)
or as an empty or None-holding list (for all); the engine only ever
branches on Python truthiness of the result. -/
structure Page where
  url : String
  locateOne : Option String → Option String → Option PyValue → ℕ → PyValue
  locateAll : Option String → Option String → Option PyValue → ℕ → List PyValue

/-- A selector dict.  The outer Option models key presence (validate
checks for it), the inner Option models an explicit null value. -/
structure Selector where
  css : Option (Option String) := Option.some Option.none
  attr : Option (Option String) := Option.some Option.none

/-- A field or locator selector entry: either a single selector dict or a
list of alternatives (the duck-typed shapes the source accepts). -/
inductive SelInput where
  | one (s : Selector)
  | alts (ss : List Selector)

/-- The isinstance(selector, list) normalisation at the top of
scrape_single_field. -/
def normalizeSel : SelInput → List Selector
  | SelInput.one s => [s]
  | SelInput.alts ss => ss

/-- options of a field: many/required/default/type with the defaults the
source reads via options.get.  ftype = Option.none models an explicit null
type entry; absence of the key yields the default "str". -/
structure FieldOptions where
  many : Bool := false
  required : Bool := false
  default : PyValue := PyValue.none
  ftype : Option String := Option.some "str"

/-- Python truthiness of the field_type value: null and the empty string
are falsy, any other string is truthy. -/
def ftypeTruthy : Option String → Bool
  | Option.none => false
  | Option.some t => t ≠ ""

/-- BasePipeline.validate_selector: both the css and the attribute key
must be present in the selector dict. -/
def validate_selector (name : String) (s : Selector) : Except Err Unit :=
  if s.css.isNone then
    Except.error (Err.keyError ("Selector for field " ++ name ++ " must have css key."))
  else if s.attr.isNone then
    Except.error (Err.keyError ("Selector for field " ++ name ++ " must have attribute key."))
  else Except.ok ()

/-- The timeout tier of scrape_single_field: short when there is more than
one alternative selector, long otherwise. -/
def tmOf (ss : List Selector) : ℕ := if ss.length > 1 then 10 else 100

/-- One locate attempt of the fallback loop: locate_all_elements when
many (the Python list lands in field_value), locate_one_element
otherwise. -/
def locateField (page : Page) (many : Bool) (s : Selector) (root : Option PyValue)
    (t : ℕ) : PyValue :=
  if many then PyValue.list (page.locateAll s.css.join s.attr.join root t)
  else page.locateOne s.css.join s.attr.join root t

/-- The for-loop of scrape_single_field.  The second argument carries the
current binding of the local variable field_value; Option.none is the
unbound state.  Each iteration validates the selector, locates, and breaks
on a truthy result. -/
def scrapeFieldLoop (page : Page) (name : String) (many : Bool) (root : Option PyValue)
    (t : ℕ) : List Selector → Option PyValue → Except Err (Option PyValue)
  | [], fv => Except.ok fv
  | s :: rest, _ =>
    match validate_selector name s with
    | Except.error e => Except.error e
    | Except.ok _ =>
      let v := locateField page many s root t
      if pyTruthy v then Except.ok (Option.some v)
      else scrapeFieldLoop page name many root t rest (Option.some v)

/-- BasePipeline.scrape_single_field: normalise the selector, pick the
timeout tier, run the fallback loop; on a falsy result return the default
or raise for a required field; on a truthy result run the hooks and then
the type conversion (skipped when the type option is falsy).  Reading
field_value after a loop over an empty selector list raises
UnboundLocalError. -/
def scrape_single_field (hooks : Hooks) (env : PyEnv) (page : Page) (name : String)
    (selector : SelInput) (root : Option PyValue) (options : FieldOptions) :
    Except Err PyValue :=
  let selectors := normalizeSel selector
  let t := tmOf selectors
  match scrapeFieldLoop page name options.many root t selectors Option.none with
  | Except.error e => Except.error e
  | Except.ok Option.none => Except.error Err.unboundLocal
  | Except.ok (Option.some fv) =>
    if ¬ pyTruthy fv then
      if options.required then Except.error (Err.fieldNotFound name page.url)
      else Except.ok (if pyTruthy options.default then options.default
                      else if options.many then PyValue.list [] else PyValue.none)
    else
      let parsed := use_field_function hooks name fv
      if ftypeTruthy options.ftype then
        convert_field_to_type env parsed (options.ftype.getD "")
      else Except.ok parsed

/-- A field definition of a scenario (FieldSpec of the scenario schema). -/
structure FieldSpec where
  name : String
  selector : SelInput
  options : FieldOptions := {}

/-- A locator definition of a scenario; flat is options.flat with default
False. -/
structure LocatorSpec where
  name : String
  selector : SelInput
  fields : List FieldSpec
  flat : Bool := false

/-- The parsed scenario: the :name entry, root fields and locators as
parse_scenario reads them off the scenario dict. -/
structure ScenarioModel where
  name : Option String := Option.none
  root_fields : List FieldSpec := []
  locators : List LocatorSpec := []

/-- The field loops of scrape_fields and of scrape_single_locator: build
the fields dict one field at a time, scoped to the given root. -/
def fieldsIntoRecord (hooks : Hooks) (env : PyEnv) (page : Page) (root : Option PyValue) :
    List FieldSpec → Record → Except Err Record
  | [], acc => Except.ok acc
  | f :: fs, acc =>
    match scrape_single_field hooks env page f.name f.selector root f.options with
    | Except.ok v => fieldsIntoRecord hooks env page root fs (dinsert acc f.name v)
    | Except.error e => Except.error e

/-- BasePipeline.scrape_fields: all root fields against the page itself. -/
def scrape_fields (hooks : Hooks) (env : PyEnv) (page : Page)
    (fields : List FieldSpec) : Except Err Record :=
  fieldsIntoRecord hooks env page Option.none fields []

/-- The container resolution of scrape_single_locator: a single selector
dict is located directly, a list of alternatives accumulates the matches
of every alternative with the += loop (union, not first-match). -/
def containersFromSel (page : Page) : SelInput → List PyValue
  | SelInput.one s => page.locateAll s.css.join s.attr.join Option.none 1000
  | SelInput.alts ss =>
    ss.foldl (fun acc s => acc ++ page.locateAll s.css.join s.attr.join Option.none 1000) []

/-- The container loop of scrape_single_locator: one fields record per
container, appended in container order. -/
def containersRecords (hooks : Hooks) (env : PyEnv) (page : Page)
    (fields : List FieldSpec) : List PyValue → List Record → Except Err (List Record)
  | [], acc => Except.ok acc
  | c :: cs, acc =>
    match fieldsIntoRecord hooks env page (Option.some c) fields [] with
    | Except.ok r => containersRecords hooks env page fields cs (acc ++ [r])
    | Except.error e => Except.error e

/-- BasePipeline.scrape_single_locator: resolve the containers, produce one
record per container, then shape the output: flat locators return the
record list with index_(name) tags, deep locators a one-key dict from the
locator name to the record list. -/
def scrape_single_locator (hooks : Hooks) (env : PyEnv) (page : Page)
    (loc : LocatorSpec) : Except Err (List Record ⊕ Record) :=
  let containers := containersFromSel page loc.selector
  match containersRecords hooks env page loc.fields containers [] with
  | Except.error e => Except.error e
  | Except.ok rs =>
    if loc.flat then
      Except.ok (Sum.inl (rs.enum.map
        (fun p => dinsert p.2 ("index_" ++ loc.name) (PyValue.int (p.1 : ℤ)))))
    else
      Except.ok (Sum.inr [(loc.name, PyValue.list (rs.map PyValue.dict))])

/-- The accumulation loop of BasePipeline.scrape_locators: list outputs
extend the flat pool, dict outputs are merged into the deep pool. -/
def locatorPools (hooks : Hooks) (env : PyEnv) (page : Page) :
    List LocatorSpec → (List Record × Record) → Except Err (List Record × Record)
  | [], acc => Except.ok acc
  | loc :: ls, acc =>
    match scrape_single_locator hooks env page loc with
    | Except.ok (Sum.inl l) => locatorPools hooks env page ls (acc.1 ++ l, acc.2)
    | Except.ok (Sum.inr d) => locatorPools hooks env page ls (acc.1, dictUpdate acc.2 d)
    | Except.error e => Except.error e

/-- BasePipeline.scrape_locators: after the accumulation loop, if the flat
pool is non-empty every flat record is updated with the deep pool and the
flat list is returned; otherwise the deep pool itself is returned. -/
def scrape_locators (hooks : Hooks) (env : PyEnv) (page : Page)
    (locs : List LocatorSpec) : Except Err (List Record ⊕ Record) :=
  match locatorPools hooks env page locs ([], []) with
  | Except.error e => Except.error e
  | Except.ok (flat, deep) =>
    if flat.isEmpty then Except.ok (Sum.inr deep)
    else Except.ok (Sum.inl (flat.map (fun r => dictUpdate r deep)))

/-- str(self) of a pipeline with a dict scenario: the :name entry or the
UnnamedPipeline fallback built from the random id. -/
def pipelineIdentity (scn : ScenarioModel) (pid : String) : String :=
  scn.name.getD ("UnnamedPipeline_" ++ pid)

/-- The two output shapes of BasePipeline.run. -/
inductive RunOutput where
  | keyed (identity : String) (records : List Record)
  | single (r : Record)

/-- The input_data merge of run: a truthy (present, non-empty) input dict
is updated over the scraped root fields, so caller-supplied input wins on
key collision. -/
def mergedInput (rf : Record) : Option Record → Record
  | Option.some i => if i.isEmpty then rf else dictUpdate rf i
  | Option.none => rf

/-- BasePipeline.run: parse the scenario, scrape the root fields, merge a
truthy input_data over them, scrape the locators; a flat (list) locator
result is wrapped as the keyed mapping after every record is updated with
the root fields, a deep (dict) result is merged into the root fields and
returned as a single record.  Every exception propagates unmodified. -/
def run (hooks : Hooks) (env : PyEnv) (page : Page) (scn : ScenarioModel)
    (pid : String) (input_data : Option Record) : Except Err RunOutput :=
  match scrape_fields hooks env page scn.root_fields with
  | Except.error e => Except.error e
  | Except.ok rf =>
    let base := mergedInput rf input_data
    match scrape_locators hooks env page scn.locators with
    | Except.error e => Except.error e
    | Except.ok (Sum.inl flats) =>
      Except.ok (RunOutput.keyed (pipelineIdentity scn pid)
        (flats.map (fun r => dictUpdate r base)))
    | Except.ok (Sum.inr deep) =>
      Except.ok (RunOutput.single (dictUpdate base deep))

namespace V1

/-- The mutable pagination counters of v1 PaginationPipeline: current_page
and scraped_containers, both starting at 0. -/
structure PagState where
  current_page : ℕ := 0
  scraped_containers : ℕ := 0

/-- The limits given to PaginationPipeline.__init__: n_pagination (default
5) and n_containers (default None).  Both live under Python truthiness, so
an Option with Option.some 0 is as falsy as Option.none. -/
structure PagConfig where
  n_pagination : Option ℕ := Option.some 5
  n_containers : Option ℕ := Option.none

/-- Python truthiness of an optional integer limit. -/
def nTruthy : Option ℕ → Bool
  | Option.none => false
  | Option.some n => n ≠ 0

/-- The external webdriver and page as PaginationPipeline observes them:
the root fields and the container records found on each (1-based) page,
and whether the pagination click on the current page succeeds. -/
structure Driver where
  fieldsOnPage : ℕ → Record
  containersOnPage : ℕ → List Record
  nextAvailable : ℕ → Bool

/-- PaginationPipeline.handle_pagination: stop when a truthy container cap
is already met; otherwise, when the container cap is falsy, stop when a
truthy page cap is already met; otherwise, past the first page, click the
pagination control (whose failure means the last page was reached and
stops); finally increment current_page and continue.  Option.none is the
returned-False stop, Option.some the fall-through with the bumped state. -/
def handle_pagination (cfg : PagConfig) (drv : Driver) (st : PagState) :
    Option PagState :=
  if nTruthy cfg.n_containers ∧ st.scraped_containers ≥ cfg.n_containers.getD 0 then
    Option.none
  else if ¬ nTruthy cfg.n_containers ∧ nTruthy cfg.n_pagination
      ∧ st.current_page ≥ cfg.n_pagination.getD 0 then
    Option.none
  else if st.current_page > 0 ∧ ¬ drv.nextAvailable st.current_page then
    Option.none
  else
    Option.some { st with current_page := st.current_page + 1 }

/-- The truncation step of scrape_single_page: when the container cap is
truthy and the newly found containers would push the running count past
it, keep only the first cap-minus-scraped of them. -/
def truncated (cfg : PagConfig) (st1 : PagState) (found : List Record) : List Record :=
  if nTruthy cfg.n_containers
      ∧ found.length + st1.scraped_containers > cfg.n_containers.getD 0 then
    found.take (cfg.n_containers.getD 0 - st1.scraped_containers)
  else found

/-- PaginationPipeline.scrape_single_page: run the pagination guard (a
False result makes the page yield the falsy 0); then read the root fields,
tag them with the page number, collect the containers of the page,
truncate them when they would push the running count over a truthy cap,
add their number to scraped_containers and return the merged records. -/
def scrape_single_page (cfg : PagConfig) (drv : Driver) (st : PagState) :
    Option (List Record × PagState) :=
  match handle_pagination cfg drv st with
  | Option.none => Option.none
  | Option.some st1 =>
    let fields := dinsert (drv.fieldsOnPage st1.current_page) "page"
      (PyValue.int (st1.current_page : ℤ))
    let kept := truncated cfg st1 (drv.containersOnPage st1.current_page)
    let st2 := { st1 with scraped_containers := st1.scraped_containers + kept.length }
    Option.some (kept.map (fun c => dictUpdate fields c), st2)

/-- The while-True loop of PaginationPipeline.scrape_fields, with explicit
fuel standing in for the unbounded loop (every theorem supplies enough
fuel for its run).  Besides the accumulated records the model also reports
the final counters and how many page extractions were performed, so that
the pagination claims can speak about them.  A falsy page output (the 0 of
a stopped guard, or an empty record list) breaks the loop. -/
def scrape_fields_pag (cfg : PagConfig) (drv : Driver) :
    ℕ → PagState → List Record → (List Record × PagState × ℕ)
  | 0, st, acc => (acc, st, 0)
  | Nat.succ fuel, st, acc =>
    match scrape_single_page cfg drv st with
    | Option.none => (acc, st, 0)
    | Option.some (out, st1) =>
      if out.isEmpty then (acc, st1, 1)
      else
        let r := scrape_fields_pag cfg drv fuel st1 (acc ++ out)
        (r.1, r.2.1, r.2.2 + 1)

end V1

/-! Concrete fixtures used by witnesses and counterexamples. -/

/-- A stdlib environment whose json and datetime parsers always fail; the
claims under test never reach them. -/
def env0 : PyEnv :=
  { jsonLoads := fun _ => Option.none, strptime := fun _ => Option.none }

/-- A pipeline with no post-processing hooks defined. -/
def hooks0 : Hooks :=
  { elemHook := fun _ => Option.none, wholeHook := fun _ => Option.none }

/-- A well-formed selector dict reading the text of a css expression. -/
def selText (css : String) : Selector :=
  { css := Option.some (Option.some css), attr := Option.some (Option.some "text") }

/-- A container selector dict: css expression present, attribute key
present with an explicit null value, so element handles are returned. -/
def selCont (css : String) : Selector :=
  { css := Option.some (Option.some css), attr := Option.some Option.none }

/-- A page on which every lookup fails: one-element lookups yield None and
all-element lookups yield the empty list. -/
def pageNone : Page :=
  { url := "http://example.test/item",
    locateOne := fun _ _ _ _ => PyValue.none,
    locateAll := fun _ _ _ _ => [] }

/-- A page where the css expression b finds the text X and everything else
finds nothing. -/
def pageAB : Page :=
  { url := "http://example.test/ab",
    locateOne := fun css _ _ _ =>
      match css with
      | Option.some c => if c = "b" then PyValue.str "X" else PyValue.none
      | Option.none => PyValue.none,
    locateAll := fun _ _ _ _ => [] }

/-- A page where fx finds the text X and gy finds the text Y. -/
def pageXY : Page :=
  { url := "http://example.test/xy",
    locateOne := fun css _ _ _ =>
      match css with
      | Option.some c =>
        if c = "fx" then PyValue.str "X"
        else if c = "gy" then PyValue.str "Y"
        else PyValue.none
      | Option.none => PyValue.none,
    locateAll := fun _ _ _ _ => [] }

/-- A page with two container lists: flatc matches the container handles 1
and 2, deepc matches the handle 3; inside a container every one-element
lookup finds the text rendering of the handle, and at page scope it finds
the text R. -/
def pageLoc : Page :=
  { url := "http://example.test/loc",
    locateOne := fun _ _ root _ =>
      match root with
      | Option.some (PyValue.locator n) => PyValue.str (toString n)
      | _ => PyValue.str "R",
    locateAll := fun css _ root _ =>
      match root, css with
      | Option.none, Option.some c =>
        if c = "flatc" then [PyValue.locator 1, PyValue.locator 2]
        else if c = "deepc" then [PyValue.locator 3]
        else []
      | _, _ => [] }

/-- A container field named p read from the css expression t. -/
def fieldP : FieldSpec := { name := "p", selector := SelInput.one (selText "t") }

/-- A root field named rt read from the css expression rtc. -/
def fieldR : FieldSpec := { name := "rt", selector := SelInput.one (selText "rtc") }

/-- Fields f and g for the hook-failure fixtures. -/
def fieldF : FieldSpec := { name := "f", selector := SelInput.one (selText "fx") }

def fieldG : FieldSpec := { name := "g", selector := SelInput.one (selText "gy") }

/-- A flat locator over the flatc containers. -/
def locFlat : LocatorSpec :=
  { name := "L", selector := SelInput.one (selCont "flatc"), fields := [fieldP],
    flat := true }

/-- A deep locator over the deepc containers. -/
def locDeep : LocatorSpec :=
  { name := "D", selector := SelInput.one (selCont "deepc"), fields := [fieldP],
    flat := false }

/-- A deep locator whose selector is a list of two alternatives. -/
def locUnion : LocatorSpec :=
  { name := "M", selector := SelInput.alts [selCont "flatc", selCont "deepc"],
    fields := [fieldP], flat := false }

/-- A scenario mixing one flat and one deep locator. -/
def scnA : ScenarioModel :=
  { name := Option.some "pipeA", root_fields := [fieldR], locators := [locFlat, locDeep] }

/-- A scenario with only a deep locator. -/
def scnB : ScenarioModel :=
  { name := Option.some "pipeB", root_fields := [fieldR], locators := [locDeep] }

/-- A required root field read from the css expression m. -/
def fieldMust : FieldSpec :=
  { name := "must", selector := SelInput.one (selText "m"),
    options := { required := true } }

/-- A scenario with a single required root field that no lookup satisfies. -/
def scnReq : ScenarioModel :=
  { name := Option.some "pipeReq", root_fields := [fieldMust], locators := [] }

/-- The element hook of the C6 fixtures: append an exclamation mark to a
string, keep anything else. -/
def bangHook : PyValue → Except String PyValue
  | PyValue.str s => Except.ok (PyValue.str (s ++ "!"))
  | w => Except.ok w

/-- Hooks where the field f has an element hook appending an exclamation
mark and a whole-value hook that always raises. -/
def hooksElemBoom : Hooks :=
  { elemHook := fun k => if k = "f" then Option.some bangHook else Option.none,
    wholeHook := fun k =>
      if k = "f" then Option.some (fun _ => Except.error "boom") else Option.none }

/-- Hooks where the field f has only a whole-value hook that always
raises. -/
def hooksWholeBoom : Hooks :=
  { elemHook := fun _ => Option.none,
    wholeHook := fun k =>
      if k = "f" then Option.some (fun _ => Except.error "boom") else Option.none }

/-- The configuration of the pagination example: n_pagination 5 (the
default) and a container cap of 5. -/
def cfg8 : V1.PagConfig := { n_pagination := Option.some 5, n_containers := Option.some 5 }

/-- A driver whose every page carries no root fields, three containers and
an always-clickable next control. -/
def drv8 : V1.Driver :=
  { fieldsOnPage := fun _ => [],
    containersOnPage := fun _ =>
      [[("i", PyValue.int 1)], [("i", PyValue.int 2)], [("i", PyValue.int 3)]],
    nextAvailable := fun _ => true }

/-- Spec-side formulation of per-container record extraction: one record
per container, in container order, first failure propagating — to be
compared with the accumulator loop containersRecords of the source. -/
def recordsOfContainers (hooks : Hooks) (env : PyEnv) (page : Page)
    (fields : List FieldSpec) : List PyValue → Except Err (List Record)
  | [] => Except.ok []
  | c :: cs =>
    match fieldsIntoRecord hooks env page (Option.some c) fields [] with
    | Except.error e => Except.error e
    | Except.ok r =>
      match recordsOfContainers hooks env page fields cs with
      | Except.error e => Except.error e
      | Except.ok rs => Except.ok (r :: rs)

/-! Spec-side description of the float pattern: the predicate written from
the specification's words "the first substring matching digits '.' digits",
to be compared against the source-derived scanFloat. -/

/-- A non-empty all-digit character run. -/
def isDigitRun (l : List Char) : Prop := l ≠ [] ∧ ∀ c ∈ l, c.isDigit = true

/-- The float pattern matches at the start of l: a digit run, a period,
then a digit run, then anything. -/
def matchStartsAt (l : List Char) : Prop :=
  ∃ ip fp rest, l = ip ++ '.' :: fp ++ rest ∧ isDigitRun ip ∧ isDigitRun fp

/-- Some substring of cs matches the float pattern. -/
def hasFloatSub (cs : List Char) : Prop := ∃ j, matchStartsAt (cs.drop j)

theorem not_matchStartsAt_nil : ¬ matchStartsAt [] := by
  rintro ⟨ip, fp, rest, h, _, _⟩
  have hlen := congrArg List.length h
  simp at hlen
  omega

theorem takeWhile_all_append {p : Char → Bool} {xs : List Char} {y : Char}
    (ys : List Char) (hxs : ∀ x ∈ xs, p x = true) (hy : p y = false) :
    (xs ++ y :: ys).takeWhile p = xs ∧ (xs ++ y :: ys).dropWhile p = y :: ys := by
  induction xs with
  | nil => simp [List.takeWhile_cons, List.dropWhile_cons, hy]
  | cons x xs ih =>
    have hx : p x = true := hxs x (by simp)
    have ih2 := ih (fun a ha => hxs a (by simp [ha]))
    simp [List.takeWhile_cons, List.dropWhile_cons, hx, ih2.1, ih2.2]

theorem matchStartsAt_elim {c : Char} {rest : List Char}
    (h : matchStartsAt (c :: rest)) :
    c.isDigit = true ∧ ∃ r2, (c :: rest).dropWhile Char.isDigit = '.' :: r2
      ∧ (r2.takeWhile Char.isDigit).isEmpty = false := by
  obtain ⟨ip, fp, rest2, heq, ⟨hipne, hipd⟩, ⟨hfpne, hfpd⟩⟩ := h
  obtain ⟨d, ip', rfl⟩ : ∃ d ip', ip = d :: ip' := by
    cases ip with
    | nil => exact absurd rfl hipne
    | cons d ip' => exact ⟨d, ip', rfl⟩
  have hcd : c = d := by simpa using congrArg (fun l => l.head?) heq
  subst hcd
  have hdot : Char.isDigit '.' = false := by decide
  have hk := takeWhile_all_append (p := Char.isDigit) (fp ++ rest2) hipd hdot
  refine ⟨hipd c (by simp), fp ++ rest2, ?_, ?_⟩
  · rw [heq]; simpa [List.append_assoc] using hk.2
  · obtain ⟨e, fp', rfl⟩ : ∃ e fp', fp = e :: fp' := by
      cases fp with
      | nil => exact absurd rfl hfpne
      | cons e fp' => exact ⟨e, fp', rfl⟩
    have he : Char.isDigit e = true := hfpd e (by simp)
    simp [List.takeWhile_cons, he]

theorem hasFloatSub_cons_iff {c : Char} {rest : List Char}
    (h0 : ¬ matchStartsAt (c :: rest)) :
    hasFloatSub (c :: rest) ↔ hasFloatSub rest := by
  constructor
  · rintro ⟨j, hj⟩
    cases j with
    | zero => exact absurd hj h0
    | succ k => exact ⟨k, by simpa using hj⟩
  · rintro ⟨k, hk⟩
    exact ⟨k + 1, by simpa using hk⟩

theorem scanFloat_cons (c : Char) (rest : List Char) :
    scanFloat (c :: rest) =
      if c.isDigit then
        if ((c :: rest).dropWhile Char.isDigit).head? = Option.some '.' then
          if (((c :: rest).dropWhile Char.isDigit).tail.takeWhile Char.isDigit).isEmpty then
            scanFloat rest
          else Option.some ((c :: rest).takeWhile Char.isDigit,
            ((c :: rest).dropWhile Char.isDigit).tail.takeWhile Char.isDigit)
        else scanFloat rest
      else scanFloat rest := rfl

theorem scan_success_decomp {c : Char} {rest : List Char}
    (hc : c.isDigit = true)
    (hdot : ((c :: rest).dropWhile Char.isDigit).head? = Option.some '.')
    (hfp : (((c :: rest).dropWhile Char.isDigit).tail.takeWhile Char.isDigit).isEmpty = false) :
    c :: rest = (c :: rest).takeWhile Char.isDigit
        ++ '.' :: ((c :: rest).dropWhile Char.isDigit).tail.takeWhile Char.isDigit
        ++ ((c :: rest).dropWhile Char.isDigit).tail.dropWhile Char.isDigit
      ∧ isDigitRun ((c :: rest).takeWhile Char.isDigit)
      ∧ isDigitRun (((c :: rest).dropWhile Char.isDigit).tail.takeWhile Char.isDigit) := by
  obtain ⟨r2, hr2⟩ : ∃ r2, (c :: rest).dropWhile Char.isDigit = '.' :: r2 := by
    cases hafter : (c :: rest).dropWhile Char.isDigit with
    | nil => rw [hafter] at hdot; simp at hdot
    | cons d r2 =>
      rw [hafter] at hdot
      simp at hdot
      exact ⟨r2, by rw [hdot]⟩
  refine ⟨?_, ⟨?_, fun x hx => List.mem_takeWhile_imp hx⟩,
    ⟨?_, fun x hx => List.mem_takeWhile_imp hx⟩⟩
  · have h1 : (c :: rest).takeWhile Char.isDigit ++ (c :: rest).dropWhile Char.isDigit
        = c :: rest := List.takeWhile_append_dropWhile Char.isDigit (c :: rest)
    have h2 : r2.takeWhile Char.isDigit ++ r2.dropWhile Char.isDigit = r2 :=
      List.takeWhile_append_dropWhile Char.isDigit r2
    rw [hr2] at h1
    rw [hr2]
    simp only [List.tail_cons]
    conv_lhs => rw [← h1]
    simp only [List.append_assoc, List.cons_append, List.singleton_append]
    rw [h2]
  · simp [List.takeWhile_cons, hc]
  · rw [hr2] at hfp ⊢
    simp only [List.tail_cons] at hfp ⊢
    intro hnil
    rw [hnil] at hfp
    simp at hfp

theorem matchStartsAt_of_scan {c : Char} {rest : List Char}
    (hc : c.isDigit = true)
    (hdot : ((c :: rest).dropWhile Char.isDigit).head? = Option.some '.')
    (hfp : (((c :: rest).dropWhile Char.isDigit).tail.takeWhile Char.isDigit).isEmpty = false) :
    matchStartsAt (c :: rest) := by
  obtain ⟨hdec, hip, hfp2⟩ := scan_success_decomp hc hdot hfp
  exact ⟨_, _, _, hdec, hip, hfp2⟩

theorem scanFloat_none_iff : ∀ cs : List Char,
    scanFloat cs = Option.none ↔ ¬ hasFloatSub cs := by
  intro cs
  induction cs with
  | nil =>
    refine ⟨fun _ h => ?_, fun _ => rfl⟩
    obtain ⟨j, hj⟩ := h
    rw [List.drop_nil] at hj
    exact not_matchStartsAt_nil hj
  | cons c rest ih =>
    by_cases hc : c.isDigit = true
    · by_cases hdot : ((c :: rest).dropWhile Char.isDigit).head? = Option.some '.'
      · by_cases hfp : (((c :: rest).dropWhile Char.isDigit).tail.takeWhile Char.isDigit).isEmpty
          = true
        · have hstep : scanFloat (c :: rest) = scanFloat rest := by
            rw [scanFloat_cons, if_pos hc, if_pos hdot, if_pos hfp]
          have h0 : ¬ matchStartsAt (c :: rest) := by
            intro h
            obtain ⟨-, r2, hdrop, hne⟩ := matchStartsAt_elim h
            rw [hdrop] at hfp
            simp only [List.tail_cons] at hfp
            rw [hfp] at hne
            cases hne
          rw [hstep, hasFloatSub_cons_iff h0]
          exact ih
        · have hfp' := Bool.eq_false_iff.mpr hfp
          have hstep : scanFloat (c :: rest)
              = Option.some ((c :: rest).takeWhile Char.isDigit,
                ((c :: rest).dropWhile Char.isDigit).tail.takeWhile Char.isDigit) := by
            rw [scanFloat_cons, if_pos hc, if_pos hdot, if_neg (by rw [hfp']; simp)]
          refine ⟨fun h => ?_, fun hn => ?_⟩
          · rw [hstep] at h
            cases h
          · exact absurd ⟨0, by simpa using matchStartsAt_of_scan hc hdot hfp'⟩ hn
      · have hstep : scanFloat (c :: rest) = scanFloat rest := by
          rw [scanFloat_cons, if_pos hc, if_neg hdot]
        have h0 : ¬ matchStartsAt (c :: rest) := by
          intro h
          obtain ⟨-, r2, hdrop, -⟩ := matchStartsAt_elim h
          rw [hdrop] at hdot
          simp at hdot
        rw [hstep, hasFloatSub_cons_iff h0]
        exact ih
    · have hcf : c.isDigit = false := Bool.eq_false_iff.mpr hc
      have hstep : scanFloat (c :: rest) = scanFloat rest := by
        rw [scanFloat_cons, if_neg (by rw [hcf]; simp)]
      have h0 : ¬ matchStartsAt (c :: rest) := by
        intro h
        rw [(matchStartsAt_elim h).1] at hcf
        cases hcf
      rw [hstep, hasFloatSub_cons_iff h0]
      exact ih

theorem scanFloat_some_spec : ∀ cs ip fp : List Char,
    scanFloat cs = Option.some (ip, fp) →
    ∃ j post, cs.drop j = ip ++ '.' :: fp ++ post
      ∧ isDigitRun ip ∧ isDigitRun fp
      ∧ (∀ k, k < j → ¬ matchStartsAt (cs.drop k))
      ∧ ∀ c0, post.head? = Option.some c0 → c0.isDigit = false := by
  intro cs
  induction cs with
  | nil => intro ip fp h; cases h
  | cons c rest ih =>
    intro ip fp h
    by_cases hc : c.isDigit = true
    · by_cases hdot : ((c :: rest).dropWhile Char.isDigit).head? = Option.some '.'
      · by_cases hfp : (((c :: rest).dropWhile Char.isDigit).tail.takeWhile Char.isDigit).isEmpty
          = true
        · rw [scanFloat_cons, if_pos hc, if_pos hdot, if_pos hfp] at h
          obtain ⟨j, post, hdec, hip, hfp2, hleft, hpost⟩ := ih ip fp h
          refine ⟨j + 1, post, by simpa using hdec, hip, hfp2, ?_, hpost⟩
          intro k hk
          cases k with
          | zero =>
            intro hm
            obtain ⟨-, r2, hdrop, hne⟩ := matchStartsAt_elim (by simpa using hm)
            rw [hdrop] at hfp
            simp only [List.tail_cons] at hfp
            rw [hfp] at hne
            cases hne
          | succ k' =>
            have hk' : k' < j := by omega
            intro hm
            exact hleft k' hk' (by simpa using hm)
        · have hfp' := Bool.eq_false_iff.mpr hfp
          rw [scanFloat_cons, if_pos hc, if_pos hdot, if_neg (by rw [hfp']; simp)] at h
          obtain ⟨hdec, hip, hfp2⟩ := scan_success_decomp hc hdot hfp'
          injection h with h1
          have hips : ip = (c :: rest).takeWhile Char.isDigit := by
            have := congrArg Prod.fst h1; simpa using this.symm
          have hfps : fp = ((c :: rest).dropWhile Char.isDigit).tail.takeWhile Char.isDigit := by
            have := congrArg Prod.snd h1; simpa using this.symm
          subst hips hfps
          refine ⟨0, ((c :: rest).dropWhile Char.isDigit).tail.dropWhile Char.isDigit,
            by simpa using hdec, hip, hfp2, fun k hk => absurd hk (by omega), fun c0 hc0 => ?_⟩
          have hd := List.head?_dropWhile_not Char.isDigit
            ((c :: rest).dropWhile Char.isDigit).tail
          rw [hc0] at hd
          simpa using hd
      · rw [scanFloat_cons, if_pos hc, if_neg hdot] at h
        obtain ⟨j, post, hdec, hip, hfp2, hleft, hpost⟩ := ih ip fp h
        refine ⟨j + 1, post, by simpa using hdec, hip, hfp2, ?_, hpost⟩
        intro k hk
        cases k with
        | zero =>
          intro hm
          obtain ⟨-, r2, hdrop, -⟩ := matchStartsAt_elim (by simpa using hm)
          rw [hdrop] at hdot
          simp at hdot
        | succ k' =>
          have hk' : k' < j := by omega
          intro hm
          exact hleft k' hk' (by simpa using hm)
    · have hcf : c.isDigit = false := Bool.eq_false_iff.mpr hc
      rw [scanFloat_cons, if_neg (by rw [hcf]; simp)] at h
      obtain ⟨j, post, hdec, hip, hfp2, hleft, hpost⟩ := ih ip fp h
      refine ⟨j + 1, post, by simpa using hdec, hip, hfp2, ?_, hpost⟩
      intro k hk
      cases k with
      | zero =>
        intro hm
        rw [(matchStartsAt_elim (by simpa using hm)).1] at hcf
        cases hcf
      | succ k' =>
        have hk' : k' < j := by omega
        intro hm
        exact hleft k' hk' (by simpa using hm)

/-- C2 counterexample: on "3,14 kg" the float conversion of the source
returns None, not 3.14 — the comma is not normalised to a period. -/
theorem float_comma_counterexample :
    convert_field_to_type env0 (PyValue.str "3,14 kg") "float" = Except.ok PyValue.none
    ∧ Except.ok PyValue.none
      ≠ (Except.ok (PyValue.float (157 / 50)) : Except Err PyValue) := by
  refine ⟨rfl, ?_⟩
  simp

/-- C2 (amended): conversion with the "float" tag extracts the first
substring matching digits period digits, with no comma normalisation, and
returns None exactly when no such substring exists; in particular
convert("3,14 kg", "float") is None while convert("3.14 kg", "float")
equals 3.14. -/
theorem float_tag_first_match :
    (∀ env s, convert_field_to_type env (PyValue.str s) "float" = Except.ok PyValue.none
        ↔ ¬ hasFloatSub s.data)
    ∧ (∀ env s ip fp, scanFloat s.data = Option.some (ip, fp) →
        convert_field_to_type env (PyValue.str s) "float"
            = Except.ok (PyValue.float (ratOfParts (ip, fp)))
          ∧ ∃ j post, s.data.drop j = ip ++ '.' :: fp ++ post
              ∧ isDigitRun ip ∧ isDigitRun fp
              ∧ (∀ k, k < j → ¬ matchStartsAt (s.data.drop k))
              ∧ ∀ c0, post.head? = Option.some c0 → c0.isDigit = false)
    ∧ convert_field_to_type env0 (PyValue.str "3,14 kg") "float" = Except.ok PyValue.none
    ∧ convert_field_to_type env0 (PyValue.str "3.14 kg") "float"
        = Except.ok (PyValue.float (157 / 50)) := by
  have hconv : ∀ env s, convert_field_to_type env (PyValue.str s) "float"
      = to_float (PyValue.str s) := fun _ _ => rfl
  refine ⟨fun env s => ?_, fun env s ip fp h => ⟨?_, scanFloat_some_spec s.data ip fp h⟩,
    rfl, ?_⟩
  · rw [hconv]
    cases hscan : scanFloat s.data with
    | none =>
      have := (scanFloat_none_iff s.data).mp hscan
      simp only [to_float, hscan]
      exact iff_of_true trivial this
    | some p =>
      have hne : ¬ (scanFloat s.data = Option.none) := by rw [hscan]; simp
      have hhas : hasFloatSub s.data := by
        by_contra hn
        exact hne ((scanFloat_none_iff s.data).mpr hn)
      simp only [to_float, hscan]
      constructor
      · intro hcontra
        exact absurd hcontra (by simp)
      · intro hn
        exact absurd hhas hn
  · rw [hconv]
    simp only [to_float, h]
  · have h1 : convert_field_to_type env0 (PyValue.str "3.14 kg") "float"
        = Except.ok (PyValue.float (ratOfParts (['3'], ['1', '4']))) := rfl
    have h3 : '3'.toNat - 48 = 3 := by decide
    have hd1 : '1'.toNat - 48 = 1 := by decide
    have hd4 : '4'.toNat - 48 = 4 := by decide
    have h2 : ratOfParts (['3'], ['1', '4']) = 157 / 50 := by
      norm_num [ratOfParts, parseDigits, h3, hd1, hd4]
    rw [h2] at h1
    exact h1

/-- Witness for the C2 theorem: its quantified conjuncts applied at
concrete strings, the scan hypothesis discharged by rfl. -/
theorem float_tag_first_match_witness :
    convert_field_to_type env0 (PyValue.str "no digits") "float" = Except.ok PyValue.none
    ∧ convert_field_to_type env0 (PyValue.str "3.14 kg") "float"
        = Except.ok (PyValue.float (ratOfParts (['3'], ['1', '4']))) := by
  refine ⟨?_, (float_tag_first_match.2.1 env0 "3.14 kg" ['3'] ['1', '4'] rfl).1⟩
  exact (float_tag_first_match.1 env0 "no digits").mpr
    ((scanFloat_none_iff "no digits".data).mp rfl)

/-- C9 counterexample: re-running the float conversion on an
already-converted native float raises TypeError in re.findall instead of
returning the value unchanged. -/
theorem float_reconvert_counterexample :
    convert_field_to_type env0 (PyValue.float (157 / 50)) "float"
      = Except.error (Err.typeError "expected string or bytes-like object")
    ∧ convert_field_to_type env0 (PyValue.float (157 / 50)) "float"
      ≠ Except.ok (PyValue.float (157 / 50)) := by
  refine ⟨rfl, ?_⟩
  intro h
  cases (rfl : convert_field_to_type env0 (PyValue.float (157 / 50)) "float"
    = Except.error (Err.typeError "expected string or bytes-like object")) ▸ h

/-- C9 (amended): re-running conversion is a no-op for the "str" tag on an
already-trimmed string, but re-running the "float" tag on a native float
raises TypeError: the numeric converters only accept strings. -/
theorem convert_idempotence_str :
    (∀ env s, pyStrip s = s →
        convert_field_to_type env (PyValue.str s) "str" = Except.ok (PyValue.str s))
    ∧ ∀ env q, convert_field_to_type env (PyValue.float q) "float"
        = Except.error (Err.typeError "expected string or bytes-like object") := by
  constructor
  · intro env s h
    have h1 : convert_field_to_type env (PyValue.str s) "str"
        = Except.ok (PyValue.str (pyStrip s)) := rfl
    rw [h] at h1
    exact h1
  · intro env q
    rfl

/-- Witness for the C9 theorem at a concrete trimmed string and float. -/
theorem convert_idempotence_str_witness :
    convert_field_to_type env0 (PyValue.str "x") "str" = Except.ok (PyValue.str "x")
    ∧ convert_field_to_type env0 (PyValue.float 3) "float"
        = Except.error (Err.typeError "expected string or bytes-like object") :=
  ⟨convert_idempotence_str.1 env0 "x" rfl, convert_idempotence_str.2 env0 3⟩

/-! Field extraction lemmas shared by several claims. -/

theorem scrape_single_field_unfold (hooks : Hooks) (env : PyEnv) (page : Page)
    (name : String) (selector : SelInput) (root : Option PyValue)
    (options : FieldOptions) :
    scrape_single_field hooks env page name selector root options
      = match scrapeFieldLoop page name options.many root
          (tmOf (normalizeSel selector)) (normalizeSel selector) Option.none with
        | Except.error e => Except.error e
        | Except.ok Option.none => Except.error Err.unboundLocal
        | Except.ok (Option.some fv) =>
          if ¬ pyTruthy fv then
            if options.required then Except.error (Err.fieldNotFound name page.url)
            else Except.ok (if pyTruthy options.default then options.default
                else if options.many then PyValue.list [] else PyValue.none)
          else
            if ftypeTruthy options.ftype then
              convert_field_to_type env (use_field_function hooks name fv)
                (options.ftype.getD "")
            else Except.ok (use_field_function hooks name fv) := rfl

theorem scrapeFieldLoop_step (page : Page) (name : String) (many : Bool)
    (root : Option PyValue) (t : ℕ) (s : Selector) (rest : List Selector)
    (fv0 : Option PyValue)
    (hval : validate_selector name s = Except.ok ())
    (hfalsy : pyTruthy (locateField page many s root t) = false) :
    scrapeFieldLoop page name many root t (s :: rest) fv0
      = scrapeFieldLoop page name many root t rest
          (Option.some (locateField page many s root t)) := by
  have h1 : scrapeFieldLoop page name many root t (s :: rest) fv0
      = (match validate_selector name s with
         | Except.error e => Except.error e
         | Except.ok _ =>
           let v := locateField page many s root t
           if pyTruthy v then Except.ok (Option.some v)
           else scrapeFieldLoop page name many root t rest (Option.some v)) := rfl
  rw [h1, hval]
  simp [hfalsy]

theorem scrapeFieldLoop_all_falsy (page : Page) (name : String) (many : Bool)
    (root : Option PyValue) (t : ℕ) :
    ∀ (ss : List Selector) (fv0 : Option PyValue), ss ≠ [] →
      (∀ s ∈ ss, validate_selector name s = Except.ok ()
        ∧ pyTruthy (locateField page many s root t) = false) →
      ∃ v, scrapeFieldLoop page name many root t ss fv0 = Except.ok (Option.some v)
        ∧ pyTruthy v = false := by
  intro ss
  induction ss with
  | nil => intro fv0 h; exact absurd rfl h
  | cons s rest ih =>
    intro fv0 _ hall
    have hs := hall s (by simp)
    have hstep := scrapeFieldLoop_step page name many root t s rest fv0 hs.1 hs.2
    cases rest with
    | nil =>
      refine ⟨locateField page many s root t, ?_, hs.2⟩
      rw [hstep]
      rfl
    | cons s2 r2 =>
      obtain ⟨v, hv, hvf⟩ := ih (Option.some (locateField page many s root t))
        (by simp) (fun s' hs' => hall s' (List.mem_cons_of_mem _ hs'))
      exact ⟨v, by rw [hstep]; exact hv, hvf⟩

theorem scrapeFieldLoop_first_truthy (page : Page) (name : String) (many : Bool)
    (root : Option PyValue) (t : ℕ) (b : Selector) (v : PyValue)
    (hbval : validate_selector name b = Except.ok ())
    (hv : pyTruthy v = true) :
    ∀ (pre post : List Selector) (fv0 : Option PyValue),
      (∀ s ∈ pre, validate_selector name s = Except.ok ()
        ∧ pyTruthy (locateField page many s root t) = false) →
      locateField page many b root t = v →
      scrapeFieldLoop page name many root t (pre ++ b :: post) fv0
        = Except.ok (Option.some v) := by
  intro pre
  induction pre with
  | nil =>
    intro post fv0 _ hbv
    rw [List.nil_append]
    have h1 : scrapeFieldLoop page name many root t (b :: post) fv0
        = (match validate_selector name b with
           | Except.error e => Except.error e
           | Except.ok _ =>
             let v := locateField page many b root t
             if pyTruthy v then Except.ok (Option.some v)
             else scrapeFieldLoop page name many root t post (Option.some v)) := rfl
    rw [h1, hbval, hbv]
    simp [hv]
  | cons s rest ih =>
    intro post fv0 hall hbv
    have hs := hall s (by simp)
    have hstep := scrapeFieldLoop_step page name many root t s (rest ++ b :: post)
      fv0 hs.1 hs.2
    rw [List.cons_append, hstep]
    exact ih post _ (fun s' hs' => hall s' (List.mem_cons_of_mem _ hs')) hbv

/-- C10: a field whose selector normalises to an empty list of alternatives
makes scrape_single_field fail with the unbound-local error when it reads
field_value after the loop: whatever the options, neither the default nor
the required-field branch is ever reached. -/
theorem empty_selector_unbound_local (hooks : Hooks) (env : PyEnv) (page : Page)
    (name : String) (root : Option PyValue) (options : FieldOptions) :
    scrape_single_field hooks env page name (SelInput.alts []) root options
      = Except.error Err.unboundLocal := rfl

/-- C4 counterexample: a falsy default that was explicitly supplied (the
int 0) is ignored — the non-required field with no match returns None, not
its default. -/
theorem falsy_default_counterexample :
    scrape_single_field hooks0 env0 pageNone "price"
        (SelInput.one (selText "span.price")) Option.none
        { required := false, default := PyValue.int 0 }
      = Except.ok PyValue.none
    ∧ Except.ok PyValue.none ≠ (Except.ok (PyValue.int 0) : Except Err PyValue) := by
  refine ⟨rfl, ?_⟩
  simp

/-- C4 (amended): when no alternative yields a truthy value and the field
is not required, extraction returns options.default only when the default
is itself truthy; a falsy default (absent, None, 0, empty string, ...) is
replaced by the empty list when many is set and by None otherwise. -/
theorem field_default_fallback (hooks : Hooks) (env : PyEnv) (page : Page)
    (name : String) (root : Option PyValue) (options : FieldOptions)
    (ss : List Selector) (hne : ss ≠ [])
    (hall : ∀ s ∈ ss, validate_selector name s = Except.ok ()
      ∧ pyTruthy (locateField page options.many s root (tmOf ss)) = false)
    (hreq : options.required = false) :
    scrape_single_field hooks env page name (SelInput.alts ss) root options
      = Except.ok (if pyTruthy options.default then options.default
          else if options.many then PyValue.list [] else PyValue.none) := by
  obtain ⟨v, hv, hvf⟩ := scrapeFieldLoop_all_falsy page name options.many root
    (tmOf ss) ss Option.none hne hall
  rw [scrape_single_field_unfold]
  simp only [normalizeSel] at hv ⊢
  rw [hv]
  simp [hvf, hreq]

/-- Witness for the C4 theorem: two failing alternatives and a truthy
default give back the default. -/
theorem field_default_fallback_witness :
    scrape_single_field hooks0 env0 pageNone "price"
        (SelInput.alts [selText "a", selText "b"]) Option.none
        { required := false, default := PyValue.str "n/a" }
      = Except.ok (PyValue.str "n/a") := by
  have h := field_default_fallback hooks0 env0 pageNone "price" Option.none
    { required := false, default := PyValue.str "n/a" } [selText "a", selText "b"]
    (by simp) ?hall rfl
  · exact h
  case hall =>
    intro s hs
    simp only [List.mem_cons, List.mem_singleton, List.not_mem_nil, or_false] at hs
    rcases hs with rfl | rfl
    · exact ⟨rfl, rfl⟩
    · exact ⟨rfl, rfl⟩

/-- C3: with alternatives pre ++ b :: post where every alternative of pre
validates and locates only a falsy value and b locates the truthy v,
extraction returns the type conversion of the hook-processed v; the
alternatives in post are never consulted (the result does not depend on
them). -/
theorem field_first_match (hooks : Hooks) (env : PyEnv) (page : Page)
    (name : String) (root : Option PyValue) (options : FieldOptions)
    (pre post : List Selector) (b : Selector) (v : PyValue)
    (hpre : ∀ s ∈ pre, validate_selector name s = Except.ok ()
      ∧ pyTruthy (locateField page options.many s root (tmOf (pre ++ b :: post))) = false)
    (hbval : validate_selector name b = Except.ok ())
    (hbv : locateField page options.many b root (tmOf (pre ++ b :: post)) = v)
    (hv : pyTruthy v = true)
    (hft : ftypeTruthy options.ftype = true) :
    scrape_single_field hooks env page name (SelInput.alts (pre ++ b :: post)) root options
      = convert_field_to_type env (use_field_function hooks name v)
          (options.ftype.getD "") := by
  have hloop := scrapeFieldLoop_first_truthy page name options.many root
    (tmOf (pre ++ b :: post)) b v hbval hv pre post Option.none hpre hbv
  rw [scrape_single_field_unfold]
  simp only [normalizeSel] at hloop ⊢
  rw [hloop]
  simp [hv, hft]

/-- Witness for the C3 theorem: alternative a yields nothing, alternative b
yields the text X, extraction returns the converted X. -/
theorem field_first_match_witness :
    scrape_single_field hooks0 env0 pageAB "title"
        (SelInput.alts [selText "a", selText "b"]) Option.none {}
      = Except.ok (PyValue.str "X") := by
  have h := field_first_match hooks0 env0 pageAB "title" Option.none {}
    [selText "a"] [] (selText "b") (PyValue.str "X") ?hpre rfl rfl rfl rfl
  · exact h
  case hpre =>
    intro s hs
    simp only [List.mem_singleton] at hs
    subst hs
    exact ⟨rfl, rfl⟩

/-! Run-level lemmas and claims. -/

theorem scrape_single_field_required_missing (hooks : Hooks) (env : PyEnv) (page : Page)
    (name : String) (selector : SelInput) (root : Option PyValue)
    (options : FieldOptions)
    (hne : normalizeSel selector ≠ [])
    (hall : ∀ s ∈ normalizeSel selector, validate_selector name s = Except.ok ()
      ∧ pyTruthy (locateField page options.many s root (tmOf (normalizeSel selector))) = false)
    (hreq : options.required = true) :
    scrape_single_field hooks env page name selector root options
      = Except.error (Err.fieldNotFound name page.url) := by
  obtain ⟨v, hv, hvf⟩ := scrapeFieldLoop_all_falsy page name options.many root
    (tmOf (normalizeSel selector)) (normalizeSel selector) Option.none hne hall
  rw [scrape_single_field_unfold, hv]
  simp [hvf, hreq]

theorem fieldsIntoRecord_append (hooks : Hooks) (env : PyEnv) (page : Page)
    (root : Option PyValue) (l1 l2 : List FieldSpec) :
    ∀ acc, fieldsIntoRecord hooks env page root (l1 ++ l2) acc
      = match fieldsIntoRecord hooks env page root l1 acc with
        | Except.ok r => fieldsIntoRecord hooks env page root l2 r
        | Except.error e => Except.error e := by
  induction l1 with
  | nil => intro acc; rfl
  | cons f fs ih =>
    intro acc
    have hl : fieldsIntoRecord hooks env page root ((f :: fs) ++ l2) acc
        = (match scrape_single_field hooks env page f.name f.selector root f.options with
           | Except.ok v =>
             fieldsIntoRecord hooks env page root (fs ++ l2) (dinsert acc f.name v)
           | Except.error e => Except.error e) := rfl
    have hr : fieldsIntoRecord hooks env page root (f :: fs) acc
        = (match scrape_single_field hooks env page f.name f.selector root f.options with
           | Except.ok v => fieldsIntoRecord hooks env page root fs (dinsert acc f.name v)
           | Except.error e => Except.error e) := rfl
    rw [hl, hr]
    cases scrape_single_field hooks env page f.name f.selector root f.options with
    | error e => rfl
    | ok v => exact ih (dinsert acc f.name v)

/-- C5: a required field all of whose selector alternatives validate but
locate only falsy values raises the required-field error; the error
propagates unmodified through run, which therefore produces no record. -/
theorem required_field_aborts_run (hooks : Hooks) (env : PyEnv) (page : Page)
    (scn : ScenarioModel) (pid : String) (input : Option Record)
    (pre post : List FieldSpec) (f : FieldSpec) (r : Record)
    (hroot : scn.root_fields = pre ++ f :: post)
    (hpre : fieldsIntoRecord hooks env page Option.none pre [] = Except.ok r)
    (hne : normalizeSel f.selector ≠ [])
    (hall : ∀ s ∈ normalizeSel f.selector, validate_selector f.name s = Except.ok ()
      ∧ pyTruthy (locateField page f.options.many s Option.none
          (tmOf (normalizeSel f.selector))) = false)
    (hreq : f.options.required = true) :
    run hooks env page scn pid input
      = Except.error (Err.fieldNotFound f.name page.url) := by
  have hmiss := scrape_single_field_required_missing hooks env page f.name f.selector
    Option.none f.options hne hall hreq
  have hsf : scrape_fields hooks env page scn.root_fields
      = Except.error (Err.fieldNotFound f.name page.url) := by
    unfold scrape_fields
    rw [hroot, fieldsIntoRecord_append, hpre]
    show (match scrape_single_field hooks env page f.name f.selector Option.none
            f.options with
          | Except.ok v => fieldsIntoRecord hooks env page Option.none post
              (dinsert r f.name v)
          | Except.error e => Except.error e) = _
    rw [hmiss]
  unfold run
  rw [hsf]

/-- Witness for the C5 theorem: the required field must finds nothing on
the empty page, so run fails with the required-field error. -/
theorem required_field_aborts_run_witness :
    run hooks0 env0 pageNone scnReq "id0" Option.none
      = Except.error (Err.fieldNotFound "must" "http://example.test/item") := by
  have h := required_field_aborts_run hooks0 env0 pageNone scnReq "id0" Option.none
    [] [] fieldMust [] rfl rfl (by simp [fieldMust, normalizeSel]) ?hall rfl
  · exact h
  case hall =>
    intro s hs
    simp only [fieldMust, normalizeSel, List.mem_singleton] at hs
    subst hs
    exact ⟨rfl, rfl⟩

/-- C6 counterexample: with an element hook rewriting a to a! and a
whole-list hook that raises, the field value as it was before the failing
hook is the processed list, yet use_field_function returns the original
unprocessed list. -/
theorem hook_failure_counterexample :
    hookEach bangHook [PyValue.str "a"] = Except.ok [PyValue.str "a!"]
    ∧ applyHooks hooksElemBoom "f" (PyValue.list [PyValue.str "a"])
        = Except.error "boom"
    ∧ use_field_function hooksElemBoom "f" (PyValue.list [PyValue.str "a"])
        = PyValue.list [PyValue.str "a"]
    ∧ PyValue.list [PyValue.str "a"] ≠ PyValue.list [PyValue.str "a!"] := by
  refine ⟨rfl, rfl, rfl, ?_⟩
  simp

/-- C6 (amended): when the hook pipeline of a field raises, the exception
is caught and the original fully-unprocessed value is used (not the value
produced by hooks that had already succeeded); that value still goes to
type conversion, and extraction of the field and of its siblings
continues. -/
theorem hook_failure_recovery :
    (∀ hooks key value e, applyHooks hooks key value = Except.error e →
        use_field_function hooks key value = value)
    ∧ (∀ hooks env page name selector root options v e,
        scrapeFieldLoop page name options.many root (tmOf (normalizeSel selector))
            (normalizeSel selector) Option.none = Except.ok (Option.some v) →
        pyTruthy v = true →
        ftypeTruthy options.ftype = true →
        applyHooks hooks name v = Except.error e →
        scrape_single_field hooks env page name selector root options
          = convert_field_to_type env v (options.ftype.getD ""))
    ∧ scrape_fields hooksWholeBoom env0 pageXY [fieldF, fieldG]
        = Except.ok [("f", PyValue.str "X"), ("g", PyValue.str "Y")] := by
  have h1 : ∀ hooks key value e, applyHooks hooks key value = Except.error e →
      use_field_function hooks key value = value := by
    intro hooks key value e h
    unfold use_field_function
    rw [h]
  refine ⟨h1, ?_, rfl⟩
  intro hooks env page name selector root options v e hloop hv hft happ
  rw [scrape_single_field_unfold, hloop]
  simp [hv, hft, h1 hooks name v e happ]

/-- Witness for the C6 theorem: the raising whole-value hook on field f
leaves the scraped X intact and converted. -/
theorem hook_failure_recovery_witness :
    use_field_function hooksWholeBoom "f" (PyValue.str "X") = PyValue.str "X"
    ∧ scrape_single_field hooksWholeBoom env0 pageXY "f"
        (SelInput.one (selText "fx")) Option.none {}
      = Except.ok (PyValue.str "X") := by
  constructor
  · exact hook_failure_recovery.1 hooksWholeBoom "f" (PyValue.str "X") "boom" rfl
  · exact hook_failure_recovery.2.1 hooksWholeBoom env0 pageXY "f"
      (SelInput.one (selText "fx")) Option.none {} (PyValue.str "X") "boom"
      rfl rfl rfl rfl

/-! Locator-level lemmas and claims. -/

theorem foldl_append_join {α β : Type} (g : α → List β) :
    ∀ (ss : List α) (a : List β),
      ss.foldl (fun acc s => acc ++ g s) a = a ++ (ss.map g).join := by
  intro ss
  induction ss with
  | nil => intro a; simp
  | cons s rest ih => intro a; simp [List.foldl_cons, ih]

theorem containersFromSel_alts (page : Page) (ss : List Selector) :
    containersFromSel page (SelInput.alts ss)
      = (ss.map (fun s => page.locateAll s.css.join s.attr.join Option.none 1000)).join := by
  show ss.foldl _ [] = _
  rw [foldl_append_join]
  simp

theorem containersRecords_eq (hooks : Hooks) (env : PyEnv) (page : Page)
    (fields : List FieldSpec) :
    ∀ (cs : List PyValue) (acc : List Record),
      containersRecords hooks env page fields cs acc
        = match recordsOfContainers hooks env page fields cs with
          | Except.ok rs => Except.ok (acc ++ rs)
          | Except.error e => Except.error e := by
  intro cs
  induction cs with
  | nil => intro acc; simp [containersRecords, recordsOfContainers]
  | cons c cs ih =>
    intro acc
    have hl : containersRecords hooks env page fields (c :: cs) acc
        = (match fieldsIntoRecord hooks env page (Option.some c) fields [] with
           | Except.ok r => containersRecords hooks env page fields cs (acc ++ [r])
           | Except.error e => Except.error e) := rfl
    have hr : recordsOfContainers hooks env page fields (c :: cs)
        = (match fieldsIntoRecord hooks env page (Option.some c) fields [] with
           | Except.error e => Except.error e
           | Except.ok r =>
             match recordsOfContainers hooks env page fields cs with
             | Except.error e => Except.error e
             | Except.ok rs => Except.ok (r :: rs)) := rfl
    cases hfi : fieldsIntoRecord hooks env page (Option.some c) fields [] with
    | error e =>
      simp only [hfi] at hl hr
      rw [hl, hr]
    | ok r =>
      simp only [hfi] at hl hr
      rw [hl, hr, ih]
      cases hrc : recordsOfContainers hooks env page fields cs with
      | error e => simp [hrc]
      | ok rs => simp [hrc]

theorem recordsOfContainers_length (hooks : Hooks) (env : PyEnv) (page : Page)
    (fields : List FieldSpec) :
    ∀ (cs : List PyValue) (rs : List Record),
      recordsOfContainers hooks env page fields cs = Except.ok rs →
      rs.length = cs.length := by
  intro cs
  induction cs with
  | nil =>
    intro rs h
    cases h
    rfl
  | cons c cs ih =>
    intro rs h
    have hr : recordsOfContainers hooks env page fields (c :: cs)
        = (match fieldsIntoRecord hooks env page (Option.some c) fields [] with
           | Except.error e => Except.error e
           | Except.ok r =>
             match recordsOfContainers hooks env page fields cs with
             | Except.error e => Except.error e
             | Except.ok rs => Except.ok (r :: rs)) := rfl
    rw [hr] at h
    cases hfi : fieldsIntoRecord hooks env page (Option.some c) fields [] with
    | error e => rw [hfi] at h; cases h
    | ok r =>
      rw [hfi] at h
      cases hrc : recordsOfContainers hooks env page fields cs with
      | error e => rw [hrc] at h; cases h
      | ok rs2 =>
        rw [hrc] at h
        cases h
        simp [ih rs2 hrc]

/-- C7: a locator with a list of alternative selectors resolves its
container sequence as the order-preserving concatenation of every
alternative's matches (union, unlike field extraction's first match), and
produces exactly one record per container, in container order. -/
theorem locator_union_semantics (hooks : Hooks) (env : PyEnv) (page : Page)
    (loc : LocatorSpec) (ss : List Selector) (rs : List Record)
    (hsel : loc.selector = SelInput.alts ss)
    (hrec : recordsOfContainers hooks env page loc.fields
        (containersFromSel page loc.selector) = Except.ok rs) :
    containersFromSel page loc.selector
        = (ss.map (fun s => page.locateAll s.css.join s.attr.join Option.none 1000)).join
    ∧ rs.length = (containersFromSel page loc.selector).length
    ∧ scrape_single_locator hooks env page loc
        = Except.ok (if loc.flat then
            Sum.inl (rs.enum.map
              (fun p => dinsert p.2 ("index_" ++ loc.name) (PyValue.int (p.1 : ℤ))))
          else Sum.inr [(loc.name, PyValue.list (rs.map PyValue.dict))]) := by
  refine ⟨by rw [hsel]; exact containersFromSel_alts page ss,
    recordsOfContainers_length hooks env page loc.fields _ rs hrec, ?_⟩
  have hunfold : scrape_single_locator hooks env page loc
      = (match containersRecords hooks env page loc.fields
            (containersFromSel page loc.selector) [] with
         | Except.error e => Except.error e
         | Except.ok rs =>
           if loc.flat then
             Except.ok (Sum.inl (rs.enum.map
               (fun p => dinsert p.2 ("index_" ++ loc.name) (PyValue.int (p.1 : ℤ)))))
           else Except.ok (Sum.inr [(loc.name, PyValue.list (rs.map PyValue.dict))])) := rfl
  rw [hunfold, containersRecords_eq, hrec]
  cases hf : loc.flat <;> simp [hf]

/-- Witness for the C7 theorem: the two alternatives of locUnion match the
containers 1, 2 and 3 respectively and yield three records in that
order. -/
theorem locator_union_semantics_witness :
    containersFromSel pageLoc locUnion.selector
        = [PyValue.locator 1, PyValue.locator 2, PyValue.locator 3]
    ∧ scrape_single_locator hooks0 env0 pageLoc locUnion
        = Except.ok (Sum.inr [("M", PyValue.list
            [PyValue.dict [("p", PyValue.str "1")],
             PyValue.dict [("p", PyValue.str "2")],
             PyValue.dict [("p", PyValue.str "3")]])]) := by
  have h := locator_union_semantics hooks0 env0 pageLoc locUnion
    [selCont "flatc", selCont "deepc"]
    [[("p", PyValue.str "1")], [("p", PyValue.str "2")], [("p", PyValue.str "3")]]
    rfl rfl
  exact ⟨rfl, h.2.2.trans (by rfl)⟩

/-- C1: the merge law of run.  With the locator pools accumulated as
(flat, deep): if the flat pool is non-empty, run returns the keyed mapping
from the pipeline identity to the flat records, each updated with the union
of the deep mappings (and with the base record); if the flat pool is empty,
run returns the base record (root fields plus inputData) merged with the
deep mappings as a single record. -/
theorem run_merge_law (hooks : Hooks) (env : PyEnv) (page : Page)
    (scn : ScenarioModel) (pid : String) (input : Option Record)
    (rf : Record) (flat : List Record) (deep : Record)
    (hrf : scrape_fields hooks env page scn.root_fields = Except.ok rf)
    (hpools : locatorPools hooks env page scn.locators ([], []) = Except.ok (flat, deep)) :
    (flat ≠ [] → run hooks env page scn pid input
        = Except.ok (RunOutput.keyed (pipelineIdentity scn pid)
            ((flat.map (fun r => dictUpdate r deep)).map
              (fun r => dictUpdate r (mergedInput rf input)))))
    ∧ (flat = [] → run hooks env page scn pid input
        = Except.ok (RunOutput.single (dictUpdate (mergedInput rf input) deep))) := by
  have hsl : scrape_locators hooks env page scn.locators
      = (if flat.isEmpty then Except.ok (Sum.inr deep)
         else Except.ok (Sum.inl (flat.map (fun r => dictUpdate r deep)))) := by
    unfold scrape_locators
    rw [hpools]
  constructor
  · intro hne
    have he : flat.isEmpty = false := by
      cases flat with
      | nil => exact absurd rfl hne
      | cons a l => rfl
    unfold run
    rw [hrf, hsl, he]
    simp
  · intro heq
    subst heq
    unfold run
    rw [hrf, hsl]
    simp

/-- Witness for the C1 theorem: a scenario with one flat and one deep
locator returns the keyed wrapped list, a deep-only scenario returns a
single merged record. -/
theorem run_merge_law_witness :
    run hooks0 env0 pageLoc scnA "id0" (Option.some [("u", PyValue.str "U")])
      = Except.ok (RunOutput.keyed "pipeA"
          [[("p", PyValue.str "1"), ("index_L", PyValue.int 0),
            ("D", PyValue.list [PyValue.dict [("p", PyValue.str "3")]]),
            ("rt", PyValue.str "R"), ("u", PyValue.str "U")],
           [("p", PyValue.str "2"), ("index_L", PyValue.int 1),
            ("D", PyValue.list [PyValue.dict [("p", PyValue.str "3")]]),
            ("rt", PyValue.str "R"), ("u", PyValue.str "U")]])
    ∧ run hooks0 env0 pageLoc scnB "id0" Option.none
      = Except.ok (RunOutput.single
          [("rt", PyValue.str "R"),
           ("D", PyValue.list [PyValue.dict [("p", PyValue.str "3")]])]) := by
  constructor
  · exact ((run_merge_law hooks0 env0 pageLoc scnA "id0"
      (Option.some [("u", PyValue.str "U")]) [("rt", PyValue.str "R")]
      [[("p", PyValue.str "1"), ("index_L", PyValue.int 0)],
       [("p", PyValue.str "2"), ("index_L", PyValue.int 1)]]
      [("D", PyValue.list [PyValue.dict [("p", PyValue.str "3")]])]
      rfl rfl).1 (by simp)).trans (by rfl)
  · exact ((run_merge_law hooks0 env0 pageLoc scnB "id0" Option.none
      [("rt", PyValue.str "R")] []
      [("D", PyValue.list [PyValue.dict [("p", PyValue.str "3")]])]
      rfl rfl).2 rfl).trans (by rfl)

/-! Pagination lemmas and claim. -/

theorem pag_guard_stop (cfg : V1.PagConfig) (drv : V1.Driver) (nc : ℕ)
    (st : V1.PagState) (hc : cfg.n_containers = Option.some nc) (h0 : 0 < nc)
    (hge : nc ≤ st.scraped_containers) :
    V1.scrape_single_page cfg drv st = Option.none := by
  have hguard : V1.handle_pagination cfg drv st = Option.none := by
    unfold V1.handle_pagination
    rw [hc]
    rw [if_pos]
    exact ⟨by simp [V1.nTruthy]; omega, by simpa using hge⟩
  unfold V1.scrape_single_page
  rw [hguard]

theorem truncated_le (cfg : V1.PagConfig) (st1 : V1.PagState) (found : List Record)
    (nc : ℕ) (hc : cfg.n_containers = Option.some nc) (h0 : 0 < nc)
    (hlt : st1.scraped_containers < nc) :
    st1.scraped_containers + (V1.truncated cfg st1 found).length ≤ nc := by
  have hT : V1.nTruthy cfg.n_containers = true := by
    rw [hc]
    simp only [V1.nTruthy, decide_eq_true_eq]
    omega
  unfold V1.truncated
  rw [hc] at hT ⊢
  simp only [Option.getD_some]
  by_cases hcap : found.length + st1.scraped_containers > nc
  · rw [if_pos ⟨by rw [← hc] at hT ⊢; exact hT, hcap⟩]
    have htake : (found.take (nc - st1.scraped_containers)).length
        ≤ nc - st1.scraped_containers := by
      simp [List.length_take]
    omega
  · rw [if_neg (fun hcon => hcap hcon.2)]
    omega

theorem pag_step_le (cfg : V1.PagConfig) (drv : V1.Driver) (nc : ℕ)
    (st st1 : V1.PagState) (out : List Record)
    (hc : cfg.n_containers = Option.some nc) (h0 : 0 < nc)
    (hstep : V1.scrape_single_page cfg drv st = Option.some (out, st1))
    (hle : st.scraped_containers ≤ nc) :
    st1.scraped_containers ≤ nc := by
  by_cases hge : nc ≤ st.scraped_containers
  · rw [pag_guard_stop cfg drv nc st hc h0 hge] at hstep
    cases hstep
  · have hlt : st.scraped_containers < nc := by omega
    unfold V1.scrape_single_page at hstep
    cases hhp : V1.handle_pagination cfg drv st with
    | none => rw [hhp] at hstep; cases hstep
    | some st2 =>
      rw [hhp] at hstep
      have hsc2 : st2.scraped_containers = st.scraped_containers := by
        unfold V1.handle_pagination at hhp
        split at hhp
        · cases hhp
        · split at hhp
          · cases hhp
          · split at hhp
            · cases hhp
            · cases hhp; rfl
      injection hstep with hpair
      injection hpair with hout hst1
      subst hout hst1
      show st2.scraped_containers
          + (V1.truncated cfg st2 (drv.containersOnPage st2.current_page)).length ≤ nc
      exact truncated_le cfg st2 (drv.containersOnPage st2.current_page) nc hc h0
        (by omega)

theorem pag_loop_le (cfg : V1.PagConfig) (drv : V1.Driver) (nc : ℕ)
    (hc : cfg.n_containers = Option.some nc) (h0 : 0 < nc) :
    ∀ (fuel : ℕ) (st : V1.PagState) (acc : List Record),
      st.scraped_containers ≤ nc →
      (V1.scrape_fields_pag cfg drv fuel st acc).2.1.scraped_containers ≤ nc := by
  intro fuel
  induction fuel with
  | zero => intro st acc h; exact h
  | succ fuel ih =>
    intro st acc h
    have hl : V1.scrape_fields_pag cfg drv (fuel + 1) st acc
        = (match V1.scrape_single_page cfg drv st with
           | Option.none => (acc, st, 0)
           | Option.some (out, st1) =>
             if out.isEmpty then (acc, st1, 1)
             else
               let r := V1.scrape_fields_pag cfg drv fuel st1 (acc ++ out)
               (r.1, r.2.1, r.2.2 + 1)) := rfl
    rw [hl]
    cases hstep : V1.scrape_single_page cfg drv st with
    | none => exact h
    | some p =>
      obtain ⟨out, st1⟩ := p
      have h1 := pag_step_le cfg drv nc st st1 out hc h0 hstep h
      by_cases he : out.isEmpty
      · simp [he, h1]
      · simp only [he, Bool.false_eq_true, if_false]
        exact ih st1 (acc ++ out) h1

/-- C8: with a positive container cap, the running scraped-container count
never exceeds the cap at the end of the pagination loop; once the cap is
met the controller stops at the guard, performing no further page
extraction; and on the concrete 5-cap 3-per-page example, two pages are
fetched, the output has exactly 5 records and scraped_containers is 5. -/
theorem pagination_container_cap (cfg : V1.PagConfig) (drv : V1.Driver)
    (nc fuel : ℕ) (st : V1.PagState) (acc : List Record)
    (hc : cfg.n_containers = Option.some nc) (h0 : 0 < nc) :
    (st.scraped_containers ≤ nc →
        (V1.scrape_fields_pag cfg drv fuel st acc).2.1.scraped_containers ≤ nc)
    ∧ (nc ≤ st.scraped_containers →
        V1.scrape_fields_pag cfg drv (fuel + 1) st acc = (acc, st, 0))
    ∧ V1.scrape_fields_pag cfg8 drv8 10 {} []
        = ([[("page", PyValue.int 1), ("i", PyValue.int 1)],
            [("page", PyValue.int 1), ("i", PyValue.int 2)],
            [("page", PyValue.int 1), ("i", PyValue.int 3)],
            [("page", PyValue.int 2), ("i", PyValue.int 1)],
            [("page", PyValue.int 2), ("i", PyValue.int 2)]],
           { current_page := 2, scraped_containers := 5 }, 2) := by
  refine ⟨fun h => pag_loop_le cfg drv nc hc h0 fuel st acc h, fun hge => ?_, rfl⟩
  have hl : V1.scrape_fields_pag cfg drv (fuel + 1) st acc
      = (match V1.scrape_single_page cfg drv st with
         | Option.none => (acc, st, 0)
         | Option.some (out, st1) =>
           if out.isEmpty then (acc, st1, 1)
           else
             let r := V1.scrape_fields_pag cfg drv fuel st1 (acc ++ out)
             (r.1, r.2.1, r.2.2 + 1)) := rfl
  rw [hl, pag_guard_stop cfg drv nc st hc h0 hge]

/-- Witness for the C8 theorem: a fresh run stays within the cap of 5, and
a run whose cap is already met stops immediately with no page fetched. -/
theorem pagination_container_cap_witness :
    (V1.scrape_fields_pag cfg8 drv8 10 {} []).2.1.scraped_containers ≤ 5
    ∧ V1.scrape_fields_pag cfg8 drv8 3
        { current_page := 2, scraped_containers := 5 } []
      = ([], { current_page := 2, scraped_containers := 5 }, 0) := by
  have h1 := pagination_container_cap cfg8 drv8 5 10 {} [] rfl (by decide)
  have h2 := pagination_container_cap cfg8 drv8 5 2
    { current_page := 2, scraped_containers := 5 } [] rfl (by decide)
  exact ⟨h1.1 (by decide), h2.2.1 (by decide)⟩

end PlugAndCrawl
